import Mathlib

/-!
Verification development for the core of the amazon-ssm-agent repository:
a shallow embedding in Lean 4 of the version comparator
(agent/versionutil/versionutil.go), the document parser
(agent/docparser/docparser.go) and the task pool (agent/task/pool.go),
together with proofs about the embedded definitions.

Go strings are modelled by Lean `String` / `List Char`; comparing Lean
characters by code point coincides with Go's byte-wise string comparison
because UTF-8 encoding preserves code-point order.  Machine integers are
modelled by `Int`/`Nat` with explicit 64-bit range checks where Go's
`strconv` enforces them.  Fallible Go functions return `Except`/`Option`.
-/

namespace SsmAgent

/-! ## Go standard-library primitives -/

/-- Byte-wise (code-point-wise) lexicographic `<` on strings as lists of
characters, matching Go's `<` on `string`. -/
def charListLt : List Char → List Char → Bool
  | [], [] => false
  | [], _ :: _ => true
  | _ :: _, [] => false
  | a :: as, b :: bs =>
    if a < b then true
    else if b < a then false
    else charListLt as bs

/-- Decimal digit run parser used by `strconv.ParseUint` (base 10): all
characters must be digits `0`-`9` and the run must be nonempty. -/
def parseDigits (s : List Char) : Option Nat :=
  match s with
  | [] => none
  | _ => s.foldl (fun acc c =>
      acc.bind fun n => if c.isDigit then some (10 * n + (c.toNat - 48)) else none)
      (some 0)

/-- Largest value of Go's `int64`. -/
def maxInt64 : Nat := 9223372036854775807

/-- Go `strconv.ParseInt(s, 10, 64)`: optional sign, then decimal digits,
with the 64-bit range check (`≤ 2^63 - 1` positive, `≤ 2^63` negative). -/
def goParseInt64 (s : List Char) : Option Int :=
  match s with
  | [] => none
  | '+' :: rest =>
    (parseDigits rest).bind fun n => if n ≤ maxInt64 then some (n : Int) else none
  | '-' :: rest =>
    (parseDigits rest).bind fun n => if n ≤ maxInt64 + 1 then some (-(n : Int)) else none
  | _ =>
    (parseDigits s).bind fun n => if n ≤ maxInt64 then some (n : Int) else none

/-- Go `strconv.Atoi` on a 64-bit platform is `ParseInt(s, 10, 0)` with
`int` = `int64`. -/
def goAtoi (s : List Char) : Option Int := goParseInt64 s

/-- Go `strings.Split(s, sep)` for a one-character separator: `Split("", sep)`
is `[""]`, and n separators yield n+1 pieces. -/
def splitChar (sep : Char) : List Char → List (List Char)
  | [] => [[]]
  | c :: rest =>
    match splitChar sep rest with
    | [] => if c = sep then [[], []] else [[c]]
    | h :: t => if c = sep then [] :: h :: t else (c :: h) :: t

/-- Splits at the first occurrence of `sep`, if any: returns the part before
and the part after. -/
def splitFirst (sep : Char) : List Char → Option (List Char × List Char)
  | [] => none
  | c :: rest =>
    if c = sep then some ([], rest)
    else (splitFirst sep rest).map fun p => (c :: p.1, p.2)

/-- go-semver's `splitOff(&input, delim)`: `SplitN(input, delim, 2)`; when the
delimiter occurs, `input` becomes the part before and the value is the part
after, otherwise the value is empty and `input` is unchanged.  Returns
`(new input, value)`. -/
def splitOff (sep : Char) (s : List Char) : List Char × List Char :=
  match splitFirst sep s with
  | some (a, b) => (a, b)
  | none => (s, [])

/-- Go `strings.SplitN(s, sep, 3)` for a one-character separator. -/
def splitN3 (sep : Char) (s : List Char) : List (List Char) :=
  match splitFirst sep s with
  | none => [s]
  | some (a, r) =>
    match splitFirst sep r with
    | none => [a, r]
    | some (b, r2) => [a, b, r2]

/-! ## go-semver (github.com/coreos/go-semver/semver)

`versionutil.Compare` first tries to parse both versions with go-semver;
the library is embedded here from its source. -/

/-- Character class of go-semver's identifier regex `[0-9A-Za-z-]`. -/
def isIdentChar (c : Char) : Bool :=
  c.isDigit || (('A' ≤ c) && (c ≤ 'Z')) || (('a' ≤ c) && (c ≤ 'z')) || c = '-'

/-- go-semver `validateIdentifier`: the empty identifier passes; otherwise the
identifier must match `^[0-9A-Za-z-]+(\.[0-9A-Za-z-]+)*$`, i.e. every
dot-separated part is nonempty and made of identifier characters. -/
def validIdentifier (s : List Char) : Bool :=
  s.isEmpty || (splitChar '.' s).all fun part => !part.isEmpty && part.all isIdentChar

/-- go-semver `Version`. -/
structure SemVer where
  Major : Int
  Minor : Int
  Patch : Int
  PreRelease : List Char
  Metadata : List Char
deriving Repr, DecidableEq

/-- go-semver `NewVersion`/`Set`: split off metadata at the first `+`, then
the pre-release at the first `-`, require exactly three dot-parts, validate
both identifiers, and parse the three parts with `ParseInt(_, 10, 64)`. -/
def newVersion (s : List Char) : Option SemVer :=
  let m := splitOff '+' s
  let p := splitOff '-' m.1
  match splitN3 '.' p.1 with
  | [a, b, c] =>
    if validIdentifier p.2 && validIdentifier m.2 then
      match goParseInt64 a, goParseInt64 b, goParseInt64 c with
      | some ma, some mi, some pa =>
        some { Major := ma, Minor := mi, Patch := pa, PreRelease := p.2, Metadata := m.2 }
      | _, _, _ => none
    else none
  | _ => none

/-- go-semver `recursiveCompare` applied to the two `Slice()`s
`[Major, Minor, Patch]`, unrolled over the three components. -/
def semverTripleCmp (a b : SemVer) : Int :=
  if a.Major > b.Major then 1
  else if a.Major < b.Major then -1
  else if a.Minor > b.Minor then 1
  else if a.Minor < b.Minor then -1
  else if a.Patch > b.Patch then 1
  else if a.Patch < b.Patch then -1
  else 0

/-- go-semver `recursivePreReleaseCompare`: numeric identifiers sort before
non-numeric ones, numeric identifiers compare as integers, otherwise the
raw strings compare; a longer list wins when the shared parts tie. -/
def recursivePreReleaseCompare : List (List Char) → List (List Char) → Int
  | [], [] => 0
  | [], _ :: _ => -1
  | _ :: _, [] => 1
  | a :: as, b :: bs =>
    match goAtoi a, goAtoi b with
    | some aI, some bI =>
      if aI > bI then 1
      else if aI < bI then -1
      else if charListLt b a then 1
      else if charListLt a b then -1
      else recursivePreReleaseCompare as bs
    | some _, none => -1
    | none, some _ => 1
    | none, none =>
      if charListLt b a then 1
      else if charListLt a b then -1
      else recursivePreReleaseCompare as bs

/-- go-semver `preReleaseCompare`: of two otherwise equal versions the one
without a pre-release is greater; otherwise the dot-split pre-releases are
compared part by part. -/
def preReleaseCompare (a b : SemVer) : Int :=
  if a.PreRelease.isEmpty && !b.PreRelease.isEmpty then 1
  else if b.PreRelease.isEmpty && !a.PreRelease.isEmpty then -1
  else recursivePreReleaseCompare (splitChar '.' a.PreRelease) (splitChar '.' b.PreRelease)

/-- go-semver `Version.Compare`. -/
def semverCompare (a b : SemVer) : Int :=
  let t := semverTripleCmp a b
  if t ≠ 0 then t else preReleaseCompare a b

/-! ## agent/versionutil/versionutil.go -/

/-- `normalizeForCompare` (versionutil.go): removes trailing components that
are numerically zero; implemented here by scanning the reversed character
list.  `cand` is the current candidate result (the reversed characters kept
so far, i.e. Go's `version[0:lenSignificant]` reversed); a `'0'` keeps the
candidate, a `'.'` cuts the candidate down to the remainder, any other
character stops the scan, and consuming the whole string yields `""`. -/
def normRevAux (cand : List Char) : List Char → List Char
  | [] => []
  | c :: rest =>
    if c = '0' then normRevAux cand rest
    else if c = '.' then normRevAux rest rest
    else cand

/-- `normalizeForCompare` on a character list. -/
def normalizeForCompare (s : List Char) : List Char :=
  (normRevAux s.reverse s.reverse).reverse

/-- The component loop of `versionutil.Compare`: aligned components compare
numerically when both parse with `Atoi`, otherwise as raw text; when one
side runs out the result is `len(this) - len(other)` (the remaining-length
difference equals the original length difference). -/
def compareLoop : List (List Char) → List (List Char) → Int
  | [], [] => 0
  | [], y :: ys => -(((y :: ys).length : Nat) : Int)
  | x :: xs, [] => (((x :: xs).length : Nat) : Int)
  | x :: xs, y :: ys =>
    match goAtoi x, goAtoi y with
    | some a, some b =>
      if a < b then -1
      else if a > b then 1
      else compareLoop xs ys
    | _, _ =>
      if charListLt x y then -1
      else if charListLt y x then 1
      else compareLoop xs ys

/-- `versionutil.Compare(this, other, strictSort)`: semver ordering when both
sides parse as semver, otherwise component-wise comparison of the dot-split
versions, normalized first unless `strictSort`. -/
def Compare (thisVer otherVer : String) (strictSort : Bool) : Int :=
  match newVersion thisVer.data, newVersion otherVer.data with
  | some tv, some ov => semverCompare tv ov
  | _, _ =>
    let tv := if strictSort then thisVer.data else normalizeForCompare thisVer.data
    let ov := if strictSort then otherVer.data else normalizeForCompare otherVer.data
    compareLoop (splitChar '.' tv) (splitChar '.' ov)

/-! ## agent/docparser/docparser.go — data model

The `contracts` structures (`DocumentContent`, `Configuration`,
`PluginState`, …) live outside the provided sources; their shapes follow
the fields the parser reads and writes and the spec's data model (§3, §6).
Go's `interface{}` payloads (`Settings`, `Inputs`, `Properties`) are
modelled by a JSON-like value type that the parser only passes through. -/

/-- JSON-like value standing in for Go `interface{}` payloads. -/
inductive GoValue where
  | null
  | str (s : String)
  | arr (xs : List GoValue)
  | obj (fields : List (String × GoValue))

instance : Inhabited GoValue := ⟨GoValue.null⟩

/-- A Go slice, distinguishing the nil slice from a non-nil one. -/
abbrev GoSlice (α : Type) := Option (List α)

/-- Go `len` of a slice (`len(nil) = 0`). -/
def goLen {α : Type} : GoSlice α → Nat
  | none => 0
  | some l => l.length

/-- The elements ranged over by Go `range` on a slice. -/
def goElems {α : Type} : GoSlice α → List α
  | none => []
  | some l => l

/-- Go `s == nil` for a slice. -/
def goIsNil {α : Type} : GoSlice α → Bool
  | none => true
  | some _ => false

/-- contracts.InstancePluginConfig: one v2.x `mainSteps` entry. -/
structure InstancePluginConfig where
  Action : String
  Inputs : GoValue
  MaxAttempts : Int
  Name : String
  OnFailure : String
  Settings : GoValue
  Timeout : Int
  Preconditions : List (String × List String)

/-- contracts.PluginConfig: one v1.x `runtimeConfig` entry. -/
structure PluginConfig where
  Settings : GoValue
  Properties : GoValue

/-- contracts.DocumentContent (the fields the parser reads).  The v1.x
`runtimeConfig` map is modelled as an association list (Go map iteration
order is unspecified; the claims here do not depend on it). -/
structure DocContent where
  SchemaVersion : String
  Description : String
  RuntimeConfig : List (String × PluginConfig)
  MainSteps : GoSlice InstancePluginConfig

/-- contracts.CloudWatchConfiguration (the fields the parser reads). -/
structure CloudWatchConfiguration where
  LogGroupName : String
  LogGroupEncryptionEnabled : Bool

/-- docparser.DocumentParserInfo. -/
structure DocumentParserInfo where
  OrchestrationDir : String
  S3Bucket : String
  S3Prefix : String
  S3EncryptionEnabled : Bool
  MessageId : String
  DocumentId : String
  DefaultWorkingDir : String
  CloudWatchConfig : CloudWatchConfiguration

/-- contracts.Configuration: the configuration emitted to a plugin.
Fields a Go struct literal leaves unmentioned get Go zero values. -/
structure Configuration where
  Settings : GoValue
  Properties : GoValue
  OutputS3BucketName : String
  OutputS3KeyPrefix : String
  OrchestrationDirectory : String
  MessageId : String
  BookKeepingFileName : String
  PluginName : String
  PluginID : String
  Preconditions : List (String × List String)
  IsPreconditionEnabled : Bool
  DefaultWorkingDirectory : String
  SessionId : String
  ClientId : String
  S3EncryptionEnabled : Bool
  CloudWatchLogGroup : String
  CloudWatchEncryptionEnabled : Bool

/-- contracts.PluginState (the fields the parser writes). -/
structure PluginState where
  Configuration : Configuration
  Id : String
  Name : String

/-- contracts.DocumentInfo (the fields `SessionDocContent.ParseDocument`
reads). -/
structure DocumentInfo where
  DocumentID : String
  ClientId : String
  MessageID : String
  DocumentName : String

/-- contracts.SessionDocumentContent: single-plugin session document. -/
structure SessionDocContent where
  SchemaVersion : String
  Description : String
  SessionType : String
  Inputs : GoValue
  Properties : GoValue

/-- Modelled from the spec: `fileutil.BuildS3Path` is not under `src/`;
per §6, S3 key paths always join with `/`. -/
def BuildS3Path (root element : String) : String := root ++ "/" ++ element

/-- Modelled from the spec: `fileutil.BuildPath` is not under `src/`;
per §6, orchestration paths join with the platform separator (`/` on the
Linux target modelled here). -/
def BuildPath (root element : String) : String := root ++ "/" ++ element

/-- Modelled from the spec: `appconfig.PluginNameStandardStream` is not
under `src/`; §3 only requires a fixed standard-stream plugin name, so the
concrete value is immaterial to the claims. -/
def PluginNameStandardStream : String := "Standard_Stream"

/-! ## agent/docparser/docparser.go — operations -/

/-- `preconditionSchemaVersion` (docparser.go). -/
def preconditionSchemaVersion : String := "2.2"

/-- Modelled from the spec: `updateutil.VersionCompare` is not under `src/`;
§4.6 step 5 says precondition enablement uses "the version comparator
above" (§4.5), i.e. `versionutil.Compare` with non-strict ordering, and the
spec describes no failure case, so the model never returns an error. -/
def VersionCompare (a b : String) : Except String Int :=
  Except.ok (Compare a b false)

/-- `isPreconditionEnabled` (docparser.go): true when the schema version
compares at least `"2.2"` and the comparison did not fail. -/
def isPreconditionEnabled (schemaVersion : String) : Bool :=
  match VersionCompare schemaVersion preconditionSchemaVersion with
  | Except.ok v => decide (0 ≤ v)
  | Except.error _ => false

/-- Loop body of `parsePluginStateForV10Schema`: the `PluginState` built for
one `runtimeConfig` entry. -/
def v10EntryState (orchestrationDir s3Bucket s3KeyP messageID documentID
    defaultWorkingDir : String) (entry : String × PluginConfig) : PluginState :=
  let pluginName := entry.1
  let config : Configuration :=
    { Settings := entry.2.Settings
      Properties := entry.2.Properties
      OutputS3BucketName := s3Bucket
      OutputS3KeyPrefix := BuildS3Path s3KeyP pluginName
      OrchestrationDirectory := BuildPath orchestrationDir pluginName
      MessageId := messageID
      BookKeepingFileName := documentID
      PluginName := pluginName
      PluginID := pluginName
      Preconditions := []
      IsPreconditionEnabled := false
      DefaultWorkingDirectory := defaultWorkingDir
      SessionId := ""
      ClientId := ""
      S3EncryptionEnabled := false
      CloudWatchLogGroup := ""
      CloudWatchEncryptionEnabled := false }
  { Configuration := config, Id := config.PluginID, Name := config.PluginName }

/-- `parsePluginStateForV10Schema` (docparser.go): rejects an empty
`runtimeConfig`, otherwise emits one `PluginState` per entry with plugin
name and id both equal to the map key. -/
def parsePluginStateForV10Schema (docContent : DocContent)
    (orchestrationDir s3Bucket s3KeyP messageID documentID defaultWorkingDir : String) :
    Except String (List PluginState) :=
  if docContent.RuntimeConfig.length = 0 then
    Except.error "Unsupported schema format"
  else
    Except.ok (docContent.RuntimeConfig.map
      (v10EntryState orchestrationDir s3Bucket s3KeyP messageID documentID defaultWorkingDir))

/-- Loop body of `parsePluginStateForV20Schema`: the `PluginState` built for
one `mainSteps` entry. -/
def v20StepState (isPre : Bool) (orchestrationDir s3Bucket s3KeyP messageID documentID
    defaultWorkingDir : String) (instancePluginConfig : InstancePluginConfig) : PluginState :=
  let pluginName := instancePluginConfig.Action
  let config : Configuration :=
    { Settings := instancePluginConfig.Settings
      Properties := instancePluginConfig.Inputs
      OutputS3BucketName := s3Bucket
      OutputS3KeyPrefix := BuildS3Path s3KeyP pluginName
      OrchestrationDirectory := BuildPath orchestrationDir instancePluginConfig.Name
      MessageId := messageID
      BookKeepingFileName := documentID
      PluginName := pluginName
      PluginID := instancePluginConfig.Name
      Preconditions := instancePluginConfig.Preconditions
      IsPreconditionEnabled := isPre
      DefaultWorkingDirectory := defaultWorkingDir
      SessionId := ""
      ClientId := ""
      S3EncryptionEnabled := false
      CloudWatchLogGroup := ""
      CloudWatchEncryptionEnabled := false }
  { Configuration := config, Id := config.PluginID, Name := config.PluginName }

/-- `parsePluginStateForV20Schema` (docparser.go): rejects empty `mainSteps`
(`len(docContent.MainSteps) == 0`), otherwise iterates `mainSteps` in order
emitting one `PluginState` per step with name = `action`, id = `name`, the
step's preconditions, and the precondition flag from the schema version. -/
def parsePluginStateForV20Schema (docContent : DocContent)
    (orchestrationDir s3Bucket s3KeyP messageID documentID defaultWorkingDir : String) :
    Except String (List PluginState) :=
  if goLen docContent.MainSteps = 0 then
    Except.error "Unsupported schema format"
  else
    Except.ok ((goElems docContent.MainSteps).map
      (v20StepState (isPreconditionEnabled docContent.SchemaVersion)
        orchestrationDir s3Bucket s3KeyP messageID documentID defaultWorkingDir))

/-- `parsePluginStateForStartSession` (docparser.go): emits exactly one
`PluginState` for the fixed standard-stream plugin, built from the parser
info, the session id and the client id. -/
def parsePluginStateForStartSession (parserInfo : DocumentParserInfo)
    (sessionId clientId : String) : Except String (List PluginState) :=
  let pluginName := PluginNameStandardStream
  let config : Configuration :=
    { Settings := GoValue.null
      Properties := GoValue.null
      OutputS3BucketName := parserInfo.S3Bucket
      OutputS3KeyPrefix := parserInfo.S3Prefix
      OrchestrationDirectory := BuildPath parserInfo.OrchestrationDir pluginName
      MessageId := parserInfo.MessageId
      BookKeepingFileName := parserInfo.DocumentId
      PluginName := pluginName
      PluginID := pluginName
      Preconditions := []
      IsPreconditionEnabled := false
      DefaultWorkingDirectory := parserInfo.DefaultWorkingDir
      SessionId := sessionId
      ClientId := clientId
      S3EncryptionEnabled := parserInfo.S3EncryptionEnabled
      CloudWatchLogGroup := parserInfo.CloudWatchConfig.LogGroupName
      CloudWatchEncryptionEnabled := parserInfo.CloudWatchConfig.LogGroupEncryptionEnabled }
  Except.ok [{ Configuration := config, Id := config.PluginID, Name := config.PluginName }]

/-- `SessionDocContent.ParseDocument` (docparser.go): delegates to
`parsePluginStateForStartSession` with the parser info and the document
info's `DocumentID` and `ClientId`; the document content and the caller's
parameters are not consulted (the log sink, an external collaborator, is
omitted). -/
def SessionDocContent.ParseDocument (_sessionDocContent : SessionDocContent)
    (docInfo : DocumentInfo) (parserInfo : DocumentParserInfo)
    (_params : List (String × GoValue)) : Except String (List PluginState) :=
  parsePluginStateForStartSession parserInfo docInfo.DocumentID docInfo.ClientId

/-- `parseDocumentContent` (docparser.go): dispatch on `schemaVersion`
(the Go `switch` rendered as an if-chain). -/
def parseDocumentContent (docContent : DocContent) (parserInfo : DocumentParserInfo) :
    Except String (List PluginState) :=
  if docContent.SchemaVersion = "1.0" ∨ docContent.SchemaVersion = "1.2" then
    parsePluginStateForV10Schema docContent parserInfo.OrchestrationDir parserInfo.S3Bucket
      parserInfo.S3Prefix parserInfo.MessageId parserInfo.DocumentId parserInfo.DefaultWorkingDir
  else if docContent.SchemaVersion = "2.0" ∨ docContent.SchemaVersion = "2.0.1" ∨
      docContent.SchemaVersion = "2.0.2" ∨ docContent.SchemaVersion = "2.0.3" ∨
      docContent.SchemaVersion = "2.2" then
    parsePluginStateForV20Schema docContent parserInfo.OrchestrationDir parserInfo.S3Bucket
      parserInfo.S3Prefix parserInfo.MessageId parserInfo.DocumentId parserInfo.DefaultWorkingDir
  else
    Except.error "Unsupported document"

/-- The v2.x schema versions of the dispatch in `parseDocumentContent`. -/
def v2xSchemaVersions : List String := ["2.0", "2.0.1", "2.0.2", "2.0.3", "2.2"]

/-- The guard at docparser.go:357 in `replaceValidatedPluginParameters`:
`mainSteps != nil || len(mainSteps) != 0`. -/
def mainStepsGuard (mainSteps : GoSlice InstancePluginConfig) : Bool :=
  !goIsNil mainSteps || decide (goLen mainSteps ≠ 0)

/-! ## ParseDocumentNameAndVersion (docparser.go) -/

/-- `filepath.Base` on the Linux target: `"."` for the empty path, strip
trailing slashes, keep everything after the last `/`, and `"/"` if nothing
remains. -/
def filepathBase (path : String) : String :=
  if path.data.isEmpty then "."
  else
    let p := (path.data.reverse.dropWhile fun c => c = '/').reverse
    let b := (p.reverse.takeWhile fun c => c ≠ '/').reverse
    if b.isEmpty then "/" else String.mk b

/-- Does `s` end with `suf`?  (`rs`, `rsuf` are the reversed lists.) -/
def revStartsWith : List Char → List Char → Bool
  | _, [] => true
  | [], _ :: _ => false
  | a :: as, b :: bs => a = b && revStartsWith as bs

/-- Go `strings.TrimSuffix`. -/
def goTrimSuffix (s suf : List Char) : List Char :=
  if revStartsWith s.reverse suf.reverse then s.take (s.length - suf.length) else s

/-- `ParseDocumentNameAndVersion` (docparser.go): empty input yields two
empty strings; otherwise take the basename, split it on `:`, use the second
part (if any) as the version, and trim the `":"+version` suffix from the
original name. -/
def ParseDocumentNameAndVersion (name : String) : String × String :=
  if name.data.isEmpty then ("", "")
  else
    let docNameWithVersion := filepathBase name
    let docNameArray := splitChar ':' docNameWithVersion.data
    let docVersion : List Char :=
      match docNameArray with
      | _ :: v :: _ => v
      | _ => []
    let docName := goTrimSuffix name.data (':' :: docVersion)
    (String.mk docName, String.mk docVersion)

/-! ## agent/task/pool.go — sequential API model

`pool` owns a `JobStore` (id → `*JobToken`), an unbuffered `jobQueue` of
`JobToken`, and an `isShutdown` flag.  Each `Submit` creates a fresh
`JobToken` holding a mutable `ChanneledCancelFlag`; the token is shared by
the store and the queue, so flag cells are modelled in a separate table
keyed by a token counter.  The public operations `Submit`, `Cancel`,
`Shutdown` are modelled as state transformers; a Go send on a closed
channel panics, which the model records as an explicit outcome. -/

/-- The three `CancelFlag` states. -/
inductive CancelState where
  | Running
  | Canceled
  | ShutDown
deriving Repr, DecidableEq

/-- Modelled from the spec: `ChanneledCancelFlag.Set` lives in
agent/task/cancelflag.go, which is not under `src/`; per §4.1 it
transitions only away from `Running` and is otherwise a no-op. -/
def flagSet (s : CancelState) (target : CancelState) : CancelState :=
  match s with
  | CancelState.Running => target
  | _ => s

/-- Sets the flag cell of token `tok` in the flag table. -/
def setFlagOf (tok : Nat) (target : CancelState) :
    List (Nat × CancelState) → List (Nat × CancelState)
  | [] => []
  | (t, s) :: rest =>
    if t = tok then (t, flagSet s target) :: rest
    else (t, s) :: setFlagOf tok target rest

/-- State of the task pool: `flags` is the cell of every created token,
`store` is the `JobStore` (id → token), `queued` the tokens sent on
`jobQueue` and not yet consumed, and `queueClosed`/`isShutdown` the channel
and pool shutdown state. -/
structure PoolModel where
  nextTok : Nat
  flags : List (Nat × CancelState)
  store : List (String × Nat)
  queued : List Nat
  queueClosed : Bool
  isShutdown : Bool
deriving Repr, DecidableEq

/-- The pool as `NewPool` leaves it (the workers are modelled separately). -/
def initPoolModel : PoolModel :=
  { nextTok := 0, flags := [], store := [], queued := [],
    queueClosed := false, isShutdown := false }

/-- Outcome of one `pool.Submit` call: Go's only error return is the
duplicate-job error from `JobStore.AddJob`; a send on a closed channel
panics. -/
inductive SubmitOutcome where
  | ok
  | errDuplicateJob
  | panicked
deriving Repr, DecidableEq

/-- `JobStore.GetJob`-style lookup. -/
def storeLookup (store : List (String × Nat)) (jobID : String) : Option Nat :=
  match store with
  | [] => none
  | (k, v) :: rest => if k = jobID then some v else storeLookup rest jobID

/-- `JobStore.DeleteJob`-style removal (idempotent). -/
def storeDelete (store : List (String × Nat)) (jobID : String) : List (String × Nat) :=
  match store with
  | [] => []
  | (k, v) :: rest => if k = jobID then storeDelete rest jobID else (k, v) :: storeDelete rest jobID

/-- `pool.HasJob`. -/
def HasJob (p : PoolModel) (jobID : String) : Bool :=
  (storeLookup p.store jobID).isSome

/-- `pool.Submit` (pool.go:171-184): create a token with a fresh `Running`
flag, `AddJob` it (duplicate-job error if the id is present), then send it
on `jobQueue`; if the queue has been closed by `Shutdown` the send panics
and the Go function never returns — the store keeps the just-added entry. -/
def Submit (p : PoolModel) (jobID : String) : PoolModel × SubmitOutcome :=
  if (storeLookup p.store jobID).isSome then
    (p, SubmitOutcome.errDuplicateJob)
  else
    let tok := p.nextTok
    let p1 : PoolModel :=
      { p with
        nextTok := p.nextTok + 1
        flags := (tok, CancelState.Running) :: p.flags
        store := (jobID, tok) :: p.store }
    if p1.queueClosed then (p1, SubmitOutcome.panicked)
    else ({ p1 with queued := p1.queued ++ [tok] }, SubmitOutcome.ok)

/-- `pool.Cancel` (pool.go:193-204): look the token up; if absent return
false; otherwise delete it from the store first ("to avoid multiple
cancelations") and then set its flag to `Canceled`. -/
def Cancel (p : PoolModel) (jobID : String) : PoolModel × Bool :=
  match storeLookup p.store jobID with
  | none => (p, false)
  | some tok =>
    ({ p with
        store := storeDelete p.store jobID
        flags := setFlagOf tok CancelState.Canceled p.flags },
      true)

/-- `pool.ShutDownAll` (pool.go:218-226): `DeleteAllJobs` drains the store
and every drained token's flag is set to `ShutDown`. -/
def ShutDownAll (p : PoolModel) : PoolModel :=
  { p with
    store := []
    flags := (p.store.map Prod.snd).foldl (fun fs tok => setFlagOf tok CancelState.ShutDown fs) p.flags }

/-- `pool.Shutdown` (pool.go:99-112): `ShutDownAll`, then close `jobQueue`
once (guarded by `isShutdown` under the pool mutex). -/
def Shutdown (p : PoolModel) : PoolModel :=
  let p1 := ShutDownAll p
  if p1.isShutdown then p1
  else { p1 with queueClosed := true, isShutdown := true }

/-! ## agent/task/pool.go — worker step relation

`NewPool` (pool.go:74-96) launches exactly `maxParallel` worker
goroutines; each runs `worker` (pool.go:162-168): a sequential loop that
receives one token at a time from `jobQueue`, skips it when its flag is
already canceled, and otherwise runs the processor to completion before
receiving again.  The interleaving of the goroutines is modelled as a
small-step transition relation. -/

/-- A token as the worker loop sees it: `canceled` is the value of
`token.cancelFlag.Canceled()` at receipt. -/
structure QueueToken where
  tok : Nat
  canceled : Bool
deriving Repr, DecidableEq

/-- One worker goroutine: blocked on the queue, running one job, or exited
(the `for range` loop ended because the queue closed and drained). -/
inductive WorkerState where
  | idle
  | busy
  | exited
deriving Repr, DecidableEq

/-- Global state of the worker system. -/
structure WorkerSys where
  workers : List WorkerState
  queue : List QueueToken
  closed : Bool
deriving Repr, DecidableEq

/-- `NewPool(log, maxParallel, …)`: `maxParallel` workers, all idle, empty
open queue. -/
def initWorkerSys (maxParallel : Nat) : WorkerSys :=
  { workers := List.replicate maxParallel WorkerState.idle, queue := [], closed := false }

/-- Number of jobs executing concurrently: workers inside `processor`. -/
def busyCount (s : WorkerSys) : Nat :=
  s.workers.countP fun w => w = WorkerState.busy

/-- Interleaved execution steps of producers, workers and shutdown. -/
inductive WorkerStep : WorkerSys → WorkerSys → Prop
  | submit (s : WorkerSys) (t : QueueToken) :
      s.closed = false →
      WorkerStep s { s with queue := s.queue ++ [t] }
  | close (s : WorkerSys) :
      WorkerStep s { s with closed := true }
  | dequeueRun (s : WorkerSys) (i : Nat) (t : QueueToken) (rest : List QueueToken) :
      s.workers.get? i = some WorkerState.idle →
      s.queue = t :: rest →
      t.canceled = false →
      WorkerStep s { s with workers := s.workers.set i WorkerState.busy, queue := rest }
  | dequeueSkip (s : WorkerSys) (i : Nat) (t : QueueToken) (rest : List QueueToken) :
      s.workers.get? i = some WorkerState.idle →
      s.queue = t :: rest →
      t.canceled = true →
      WorkerStep s { s with queue := rest }
  | finish (s : WorkerSys) (i : Nat) :
      s.workers.get? i = some WorkerState.busy →
      WorkerStep s { s with workers := s.workers.set i WorkerState.idle }
  | exit (s : WorkerSys) (i : Nat) :
      s.workers.get? i = some WorkerState.idle →
      s.closed = true →
      s.queue = [] →
      WorkerStep s { s with workers := s.workers.set i WorkerState.exited }

/-- Reachability from the initial pool state. -/
def WorkerReach (maxParallel : Nat) (s : WorkerSys) : Prop :=
  Relation.ReflTransGen WorkerStep (initWorkerSys maxParallel) s

/-! ## Concrete documents (spec §8, scenario S6) -/

/-- The `pluginLinux` step of scenario S6. -/
def sampleStepLinux : InstancePluginConfig :=
  { Action := "aws:runShellScript"
    Inputs := GoValue.obj [("runCommand", GoValue.arr [GoValue.str "echo linux"])]
    MaxAttempts := 0
    Name := "pluginLinux"
    OnFailure := ""
    Settings := GoValue.null
    Timeout := 0
    Preconditions := [("StringEquals", ["platformType", "Linux"])] }

/-- The `pluginWindows` step of scenario S6. -/
def sampleStepWindows : InstancePluginConfig :=
  { Action := "aws:runPowerShellScript"
    Inputs := GoValue.obj [("runCommand", GoValue.arr [GoValue.str "echo windows"])]
    MaxAttempts := 0
    Name := "pluginWindows"
    OnFailure := ""
    Settings := GoValue.null
    Timeout := 0
    Preconditions := [("StringEquals", ["platformType", "Windows"])] }

/-- The scenario-S6 document: schema 2.2, the two steps above. -/
def sampleDoc22 : DocContent :=
  { SchemaVersion := "2.2"
    Description := "scenario S6"
    RuntimeConfig := []
    MainSteps := some [sampleStepLinux, sampleStepWindows] }

/-- A concrete parser info record. -/
def samplePI : DocumentParserInfo :=
  { OrchestrationDir := "/var/lib/orch"
    S3Bucket := "bucket"
    S3Prefix := "keys"
    S3EncryptionEnabled := false
    MessageId := "message-1"
    DocumentId := "document-1"
    DefaultWorkingDir := "/"
    CloudWatchConfig := { LogGroupName := "group", LogGroupEncryptionEnabled := false } }

/-- The plugin states the v2.x parser emits for `sampleDoc22`/`samplePI`. -/
def sampleParsed22 : List PluginState :=
  (goElems sampleDoc22.MainSteps).map
    (v20StepState (isPreconditionEnabled sampleDoc22.SchemaVersion)
      samplePI.OrchestrationDir samplePI.S3Bucket samplePI.S3Prefix
      samplePI.MessageId samplePI.DocumentId samplePI.DefaultWorkingDir)

/-- A v2.2 document whose `mainSteps` is empty (the nil slice). -/
def emptyStepsDoc : DocContent :=
  { SchemaVersion := "2.2"
    Description := "no steps"
    RuntimeConfig := []
    MainSteps := none }

end SsmAgent

namespace SsmAgent

/-! ## Helper lemmas -/

/-- `goLen` counts the elements `range` iterates over. -/
theorem goElems_length {α : Type} (s : GoSlice α) : (goElems s).length = goLen s := by
  cases s <;> rfl

/-- The projections of the `PluginState` built for one v2.x step. -/
theorem v20StepState_fields (b : Bool) (od s3b s3p mid did dwd : String)
    (c : InstancePluginConfig) :
    (v20StepState b od s3b s3p mid did dwd c).Name = c.Action ∧
    (v20StepState b od s3b s3p mid did dwd c).Id = c.Name ∧
    (v20StepState b od s3b s3p mid did dwd c).Configuration.Preconditions = c.Preconditions ∧
    (v20StepState b od s3b s3p mid did dwd c).Configuration.IsPreconditionEnabled = b :=
  ⟨rfl, rfl, rfl, rfl⟩

/-- On a v2.x schema version, `parseDocumentContent` dispatches to
`parsePluginStateForV20Schema`. -/
theorem parseDocumentContent_v2x (d : DocContent) (parserInfo : DocumentParserInfo)
    (hv : d.SchemaVersion ∈ v2xSchemaVersions) :
    parseDocumentContent d parserInfo =
      parsePluginStateForV20Schema d parserInfo.OrchestrationDir parserInfo.S3Bucket
        parserInfo.S3Prefix parserInfo.MessageId parserInfo.DocumentId
        parserInfo.DefaultWorkingDir := by
  have h1 : ¬(d.SchemaVersion = "1.0" ∨ d.SchemaVersion = "1.2") := by
    have h : ∀ s ∈ v2xSchemaVersions, ¬(s = "1.0" ∨ s = "1.2") := by decide
    exact h _ hv
  have h2 : d.SchemaVersion = "2.0" ∨ d.SchemaVersion = "2.0.1" ∨
      d.SchemaVersion = "2.0.2" ∨ d.SchemaVersion = "2.0.3" ∨ d.SchemaVersion = "2.2" := by
    have h : ∀ s ∈ v2xSchemaVersions, s = "2.0" ∨ s = "2.0.1" ∨ s = "2.0.2" ∨
        s = "2.0.3" ∨ s = "2.2" := by decide
    exact h _ hv
  unfold parseDocumentContent
  rw [if_neg h1, if_pos h2]

/-- `JobStore` deletion really deletes: a deleted id no longer resolves. -/
theorem storeLookup_delete (store : List (String × Nat)) (jobID : String) :
    storeLookup (storeDelete store jobID) jobID = none := by
  induction store with
  | nil => rfl
  | cons kv rest ih =>
    obtain ⟨k, v⟩ := kv
    by_cases hk : k = jobID
    · simpa [storeDelete, hk] using ih
    · simpa [storeDelete, storeLookup, hk] using ih

/-- After `Shutdown`, the `JobStore` is empty. -/
theorem shutdown_store_empty (p : PoolModel) : (Shutdown p).store = [] := by
  unfold Shutdown ShutDownAll
  dsimp only
  split <;> rfl

/-- After a `Shutdown` on a pool whose `isShutdown` flag implies a closed
queue (as `Shutdown` itself maintains), the queue is closed. -/
theorem shutdown_queue_closed (p : PoolModel)
    (hinv : p.isShutdown = true → p.queueClosed = true) :
    (Shutdown p).queueClosed = true := by
  by_cases hs : p.isShutdown
  · simp only [Shutdown, ShutDownAll, hs, if_pos]
    exact hinv hs
  · simp [Shutdown, ShutDownAll, hs]

/-! ## Claim theorems -/

/-- C1 (amended): a `Submit` after a completed `Shutdown` does not return a
`PoolShutDown` error (the code defines none); the fresh job is first
inserted into the `JobStore`, and the send on the closed `jobQueue` then
panics, so the job is never enqueued (hence never executed) but it *is*
left behind in the `JobStore`. -/
theorem submit_after_shutdown_panics (p : PoolModel) (jobID : String)
    (hinv : p.isShutdown = true → p.queueClosed = true) :
    (Submit (Shutdown p) jobID).2 = SubmitOutcome.panicked ∧
    HasJob (Submit (Shutdown p) jobID).1 jobID = true ∧
    (Submit (Shutdown p) jobID).1.queued = (Shutdown p).queued := by
  have hstore := shutdown_store_empty p
  have hclosed := shutdown_queue_closed p hinv
  unfold Submit
  rw [hstore]
  simp [storeLookup, HasJob, hclosed, hstore]

/-- C1, counterexample to the claim as stated: on the concrete pool below,
a post-shutdown `Submit` of the fresh id `"job-1"` panics (it does not
return an error) and leaves the job in the `JobStore`. -/
theorem submit_after_shutdown_counterexample :
    (Submit (Shutdown initPoolModel) "job-1").2 = SubmitOutcome.panicked ∧
    HasJob (Submit (Shutdown initPoolModel) "job-1").1 "job-1" = true := by
  decide

/-- C1, witness: the amended theorem applied to the initial pool. -/
theorem submit_after_shutdown_panics_witness :
    (initPoolModel.isShutdown = true → initPoolModel.queueClosed = true) ∧
    ((Submit (Shutdown initPoolModel) "job-1").2 = SubmitOutcome.panicked ∧
     HasJob (Submit (Shutdown initPoolModel) "job-1").1 "job-1" = true ∧
     (Submit (Shutdown initPoolModel) "job-1").1.queued = (Shutdown initPoolModel).queued) :=
  ⟨by decide, submit_after_shutdown_panics initPoolModel "job-1" (by decide)⟩

/-- C2 (amended): for a v2.x document with `n ≥ 1` main steps the parser
emits exactly `n` `PluginState`s in source order — the i-th has `Name` the
step's `action`, `Id` the step's `name`, and the step's preconditions; a
document with `n = 0` main steps is instead rejected with the error
`"Unsupported schema format"`. -/
theorem parse_v20_mainSteps_order (d : DocContent) (parserInfo : DocumentParserInfo)
    (hv : d.SchemaVersion ∈ v2xSchemaVersions) (hn : goLen d.MainSteps ≠ 0) :
    ∃ l, parseDocumentContent d parserInfo = Except.ok l ∧
      l.length = goLen d.MainSteps ∧
      ∀ (i : Nat) (h1 : i < l.length) (h2 : i < (goElems d.MainSteps).length),
        (l.get ⟨i, h1⟩).Name = ((goElems d.MainSteps).get ⟨i, h2⟩).Action ∧
        (l.get ⟨i, h1⟩).Id = ((goElems d.MainSteps).get ⟨i, h2⟩).Name ∧
        (l.get ⟨i, h1⟩).Configuration.Preconditions =
          ((goElems d.MainSteps).get ⟨i, h2⟩).Preconditions := by
  rw [parseDocumentContent_v2x d parserInfo hv]
  unfold parsePluginStateForV20Schema
  rw [if_neg hn]
  refine ⟨_, rfl, ?_, ?_⟩
  · rw [List.length_map, goElems_length]
  · intro i h1 h2
    simp only [List.get_eq_getElem, List.getElem_map]
    exact ⟨rfl, rfl, rfl⟩

/-- C2, counterexample to the claim as stated at `n = 0`: a v2.2 document
with empty `mainSteps` is rejected, no length-0 `PluginState` list is
emitted. -/
theorem parse_v20_empty_mainSteps_errors :
    parseDocumentContent emptyStepsDoc samplePI = Except.error "Unsupported schema format" := rfl

/-- C2, witness: the amended theorem applied to the two-step 2.2 document. -/
theorem parse_v20_mainSteps_order_witness :
    (sampleDoc22.SchemaVersion ∈ v2xSchemaVersions ∧ goLen sampleDoc22.MainSteps ≠ 0) ∧
    (∃ l, parseDocumentContent sampleDoc22 samplePI = Except.ok l ∧
      l.length = goLen sampleDoc22.MainSteps ∧
      ∀ (i : Nat) (h1 : i < l.length) (h2 : i < (goElems sampleDoc22.MainSteps).length),
        (l.get ⟨i, h1⟩).Name = ((goElems sampleDoc22.MainSteps).get ⟨i, h2⟩).Action ∧
        (l.get ⟨i, h1⟩).Id = ((goElems sampleDoc22.MainSteps).get ⟨i, h2⟩).Name ∧
        (l.get ⟨i, h1⟩).Configuration.Preconditions =
          ((goElems sampleDoc22.MainSteps).get ⟨i, h2⟩).Preconditions) :=
  ⟨⟨by decide, by decide⟩, parse_v20_mainSteps_order sampleDoc22 samplePI (by decide) (by decide)⟩

/-- C3 (amended): the S5 comparisons as the code computes them —
`Compare("1.0.0.0","1",false) = 0`; `Compare("1.0.0.0","1",true) = 3`
(a positive value: the code returns the raw component-count difference,
not its sign); `Compare("2.0.1","2.0.2",false) < 0`;
`Compare("1.2.3-beta","1.2.3",false) < 0`. -/
theorem compare_s5_values :
    Compare "1.0.0.0" "1" false = 0 ∧
    Compare "1.0.0.0" "1" true = 3 ∧
    Compare "2.0.1" "2.0.2" false < 0 ∧
    Compare "1.2.3-beta" "1.2.3" false < 0 :=
  ⟨by decide, by decide, by decide, by decide⟩

/-- C3, counterexample to the claim as stated: the strict comparison of
`"1.0.0.0"` and `"1"` returns 3, not the exact value 1. -/
theorem compare_s5_strict_not_one :
    Compare "1.0.0.0" "1" true = 3 ∧ Compare "1.0.0.0" "1" true ≠ 1 :=
  ⟨by decide, by decide⟩

/-- C6: every `PluginState` emitted for a supported v2.x document carries
`IsPreconditionEnabled = (schemaVersion ≥ "2.2")` under the version
comparator. -/
theorem v20_precondition_flag (d : DocContent) (parserInfo : DocumentParserInfo)
    (l : List PluginState) (hv : d.SchemaVersion ∈ v2xSchemaVersions)
    (hok : parseDocumentContent d parserInfo = Except.ok l) :
    ∀ s ∈ l, s.Configuration.IsPreconditionEnabled =
      decide (0 ≤ Compare d.SchemaVersion "2.2" false) := by
  rw [parseDocumentContent_v2x d parserInfo hv] at hok
  unfold parsePluginStateForV20Schema at hok
  by_cases hn : goLen d.MainSteps = 0
  · rw [if_pos hn] at hok
    cases hok
  · rw [if_neg hn] at hok
    cases hok
    intro s hs
    rcases List.mem_map.mp hs with ⟨c, _, rfl⟩
    exact (v20StepState_fields _ _ _ _ _ _ _ c).2.2.2

/-- C6, witness: the scenario-S6 document (schema 2.2, two
precondition-carrying steps) parses to exactly two `PluginState`s, in
order, both with the flag true and nonempty preconditions. -/
theorem v20_precondition_flag_witness :
    sampleDoc22.SchemaVersion ∈ v2xSchemaVersions ∧
    parseDocumentContent sampleDoc22 samplePI = Except.ok sampleParsed22 ∧
    (∀ s ∈ sampleParsed22, s.Configuration.IsPreconditionEnabled =
      decide (0 ≤ Compare sampleDoc22.SchemaVersion "2.2" false)) ∧
    sampleParsed22.length = 2 ∧
    sampleParsed22.map (fun s => s.Id) = ["pluginLinux", "pluginWindows"] ∧
    sampleParsed22.map (fun s => s.Name) = ["aws:runShellScript", "aws:runPowerShellScript"] ∧
    sampleParsed22.all (fun s => s.Configuration.IsPreconditionEnabled) = true ∧
    sampleParsed22.all (fun s => !s.Configuration.Preconditions.isEmpty) = true :=
  ⟨by decide, rfl,
    v20_precondition_flag sampleDoc22 samplePI sampleParsed22 (by decide) rfl,
    rfl, rfl, rfl, rfl, rfl⟩

/-- C7: `Cancel` returns true exactly when the `JobStore` holds the id; a
successful `Cancel` deletes the entry from the store and sets the token's
flag to `Canceled`, so a `Cancel` of an unknown id returns false and a
second `Cancel` of the same id returns false. -/
theorem cancel_iff_present (p : PoolModel) (jobID : String) :
    (Cancel p jobID).2 = HasJob p jobID ∧
    storeLookup (Cancel p jobID).1.store jobID = none ∧
    (Cancel (Cancel p jobID).1 jobID).2 = false ∧
    (match storeLookup p.store jobID with
     | some tok =>
        (Cancel p jobID).1.flags = setFlagOf tok CancelState.Canceled p.flags ∧
        (Cancel p jobID).1.store = storeDelete p.store jobID
     | none => (Cancel p jobID).1 = p) := by
  cases h : storeLookup p.store jobID with
  | none => simp [Cancel, HasJob, h]
  | some tok => simp [Cancel, HasJob, h, storeLookup_delete]

/-- C8: a pool built with `maxParallel = N` starts exactly N workers, and
in every reachable state of the worker system at most N jobs execute
concurrently (each worker is a sequential loop running at most one job). -/
theorem pool_busy_le_maxParallel (maxParallel : Nat) (s : WorkerSys)
    (h : WorkerReach maxParallel s) :
    s.workers.length = maxParallel ∧ busyCount s ≤ maxParallel := by
  have hlen : s.workers.length = maxParallel := by
    induction h with
    | refl => simp [initWorkerSys]
    | tail _ hstep ih =>
      cases hstep <;> simpa using ih
  exact ⟨hlen, hlen ▸ List.countP_le_length _⟩

/-- C8, witness: the invariant at the initial state of a 2-worker pool. -/
theorem pool_busy_le_maxParallel_witness :
    (initWorkerSys 2).workers.length = 2 ∧ busyCount (initWorkerSys 2) ≤ 2 :=
  pool_busy_le_maxParallel 2 (initWorkerSys 2) Relation.ReflTransGen.refl

/-- C9 (amended): the guard `mainSteps != nil || len(mainSteps) != 0` is
*not* trivially true — it is equivalent to `mainSteps != nil`: true for
every non-nil slice (including the empty non-nil slice) and false for the
nil slice. -/
theorem mainSteps_guard_iff_not_nil (mainSteps : GoSlice InstancePluginConfig) :
    mainStepsGuard mainSteps = !goIsNil mainSteps := by
  cases mainSteps <;> simp [mainStepsGuard, goIsNil, goLen]

/-- C9, counterexample to the claim as stated: on the nil slice the guard
evaluates to false, not true. -/
theorem mainSteps_guard_false_on_nil :
    mainStepsGuard (none : GoSlice InstancePluginConfig) = false := rfl

/-- C10: `SessionDocContent.ParseDocument` never fails; it returns exactly
one `PluginState` whose `Name` and `Id` are the standard-stream plugin
name, its configuration is a function of the parser info and the document
info's `DocumentID` and `ClientId` alone, and neither the session document
content nor the `params` argument influences the result. -/
theorem session_parse_document_fixed (sessionDocContent : SessionDocContent)
    (docInfo : DocumentInfo) (parserInfo : DocumentParserInfo)
    (params : List (String × GoValue)) (sessionDocContent2 : SessionDocContent)
    (params2 : List (String × GoValue)) :
    SessionDocContent.ParseDocument sessionDocContent docInfo parserInfo params =
      parsePluginStateForStartSession parserInfo docInfo.DocumentID docInfo.ClientId ∧
    SessionDocContent.ParseDocument sessionDocContent2 docInfo parserInfo params2 =
      SessionDocContent.ParseDocument sessionDocContent docInfo parserInfo params ∧
    ∃ st, SessionDocContent.ParseDocument sessionDocContent docInfo parserInfo params =
        Except.ok [st] ∧
      st.Name = PluginNameStandardStream ∧
      st.Id = PluginNameStandardStream ∧
      st.Configuration.SessionId = docInfo.DocumentID ∧
      st.Configuration.ClientId = docInfo.ClientId :=
  ⟨rfl, rfl, _, rfl, rfl, rfl, rfl, rfl⟩

/-! ## Antisymmetry and reflexivity of the version comparator (C4) -/

/-- Characters that are not `<` in either direction are equal. -/
theorem charEq_of_not_lt {a b : Char} (h1 : ¬ a < b) (h2 : ¬ b < a) : a = b :=
  le_antisymm (not_lt.mp h2) (not_lt.mp h1)

/-- String `<` is asymmetric. -/
theorem charListLt_asymm : ∀ (x y : List Char), charListLt x y = true → charListLt y x = false := by
  intro x
  induction x with
  | nil =>
    intro y h
    cases y with
    | nil => simp [charListLt] at h
    | cons b bs => simp [charListLt]
  | cons a as ih =>
    intro y h
    cases y with
    | nil => simp [charListLt] at h
    | cons b bs =>
      by_cases hab : a < b
      · have hba : ¬ b < a := lt_asymm hab
        simp [charListLt, hab, hba]
      · by_cases hba : b < a
        · simp [charListLt, hab, hba] at h
        · simp only [charListLt, if_neg hab, if_neg hba] at h
          simp only [charListLt, if_neg hab, if_neg hba]
          exact ih bs h

/-- Strings that are not `<` in either direction are equal. -/
theorem charListLt_eq_of_not : ∀ (x y : List Char),
    charListLt x y = false → charListLt y x = false → x = y := by
  intro x
  induction x with
  | nil =>
    intro y h1 _
    cases y with
    | nil => rfl
    | cons b bs => simp [charListLt] at h1
  | cons a as ih =>
    intro y h1 h2
    cases y with
    | nil => simp [charListLt] at h2
    | cons b bs =>
      by_cases hab : a < b
      · simp [charListLt, hab] at h1
      · by_cases hba : b < a
        · simp [charListLt, hba] at h2
        · have hae : a = b := charEq_of_not_lt hab hba
          simp only [charListLt, if_neg hab, if_neg hba] at h1 h2
          rw [hae, ih bs h1 h2]

/-- `<` on strings is irreflexive. -/
theorem charListLt_irrefl (x : List Char) : charListLt x x = false := by
  cases h : charListLt x x
  · rfl
  · have h2 := charListLt_asymm x x h
    rw [h2] at h
    cases h

/-- Swapping the arguments of the component loop negates the result
exactly. -/
theorem compareLoop_swap : ∀ (xs ys : List (List Char)),
    compareLoop ys xs = -compareLoop xs ys := by
  intro xs
  induction xs with
  | nil =>
    intro ys
    cases ys with
    | nil => rfl
    | cons y ys => simp [compareLoop]
  | cons x xs ih =>
    intro ys
    cases ys with
    | nil => simp [compareLoop]
    | cons y ys =>
      have textSwap : ∀ (r1 r2 : Int), r2 = -r1 →
          (if charListLt y x then (-1 : Int) else if charListLt x y then 1 else r2) =
            -(if charListLt x y then (-1 : Int) else if charListLt y x then 1 else r1) := by
        intro r1 r2 hr
        cases h1 : charListLt x y
        · cases h2 : charListLt y x
          · simp [h1, h2, hr]
          · simp [h1, h2]
        · have h2 : charListLt y x = false := charListLt_asymm x y h1
          simp [h1, h2]
      show compareLoop (y :: ys) (x :: xs) = -compareLoop (x :: xs) (y :: ys)
      unfold compareLoop
      cases hx : goAtoi x <;> cases hy : goAtoi y
      · simpa using textSwap (compareLoop xs ys) (compareLoop ys xs) (ih ys)
      · simpa using textSwap (compareLoop xs ys) (compareLoop ys xs) (ih ys)
      · simpa using textSwap (compareLoop xs ys) (compareLoop ys xs) (ih ys)
      · rename_i a b
        rcases lt_trichotomy a b with h | h | h
        · simp [h, lt_asymm h, h.ne, h.ne', not_lt_of_gt h]
        · subst h
          simp [lt_irrefl, ih ys]
        · simp [h, lt_asymm h, h.ne, h.ne', not_lt_of_gt h]

/-- The component loop on equal argument lists returns 0. -/
theorem compareLoop_self : ∀ xs, compareLoop xs xs = 0 := by
  intro xs
  induction xs with
  | nil => rfl
  | cons x xs ih =>
    unfold compareLoop
    cases hx : goAtoi x
    · simp [charListLt_irrefl, ih]
    · simp [lt_irrefl, ih]

/-- Swapping the arguments of go-semver's triple comparison negates the
result exactly. -/
theorem semverTripleCmp_swap (a b : SemVer) : semverTripleCmp b a = -semverTripleCmp a b := by
  unfold semverTripleCmp
  split_ifs <;> omega

/-- go-semver's triple comparison is reflexive. -/
theorem semverTripleCmp_self (a : SemVer) : semverTripleCmp a a = 0 := by
  unfold semverTripleCmp
  split_ifs <;> omega

/-- Swapping the arguments of go-semver's pre-release list comparison
negates the result exactly. -/
theorem recursivePreReleaseCompare_swap : ∀ (xs ys : List (List Char)),
    recursivePreReleaseCompare ys xs = -recursivePreReleaseCompare xs ys := by
  intro xs
  induction xs with
  | nil =>
    intro ys
    cases ys with
    | nil => rfl
    | cons y ys => simp [recursivePreReleaseCompare]
  | cons x xs ih =>
    intro ys
    cases ys with
    | nil => simp [recursivePreReleaseCompare]
    | cons y ys =>
      have textSwap : ∀ (r1 r2 : Int), r2 = -r1 →
          (if charListLt x y then (1 : Int) else if charListLt y x then -1 else r2) =
            -(if charListLt y x then (1 : Int) else if charListLt x y then -1 else r1) := by
        intro r1 r2 hr
        cases h1 : charListLt x y
        · cases h2 : charListLt y x
          · simp [h1, h2, hr]
          · simp [h1, h2]
        · have h2 : charListLt y x = false := charListLt_asymm x y h1
          simp [h1, h2]
      show recursivePreReleaseCompare (y :: ys) (x :: xs) =
        -recursivePreReleaseCompare (x :: xs) (y :: ys)
      unfold recursivePreReleaseCompare
      cases hx : goAtoi x <;> cases hy : goAtoi y
      · simpa using textSwap (recursivePreReleaseCompare xs ys)
          (recursivePreReleaseCompare ys xs) (ih ys)
      · simp
      · simp
      · rename_i a b
        rcases lt_trichotomy a b with h | h | h
        · simp [h, lt_asymm h, h.ne, h.ne', not_lt_of_gt h]
        · subst h
          simpa using textSwap (recursivePreReleaseCompare xs ys)
            (recursivePreReleaseCompare ys xs) (ih ys)
        · simp [h, lt_asymm h, h.ne, h.ne', not_lt_of_gt h]

/-- go-semver's pre-release list comparison is reflexive. -/
theorem recursivePreReleaseCompare_self : ∀ xs, recursivePreReleaseCompare xs xs = 0 := by
  intro xs
  induction xs with
  | nil => rfl
  | cons x xs ih =>
    unfold recursivePreReleaseCompare
    cases hx : goAtoi x
    · simp [charListLt_irrefl, ih]
    · simp [lt_irrefl, charListLt_irrefl, ih]

/-- Swapping the arguments of go-semver's pre-release comparison negates
the result exactly. -/
theorem preReleaseCompare_swap (a b : SemVer) :
    preReleaseCompare b a = -preReleaseCompare a b := by
  unfold preReleaseCompare
  cases h1 : a.PreRelease.isEmpty <;> cases h2 : b.PreRelease.isEmpty
  · simpa [h1, h2] using
      recursivePreReleaseCompare_swap (splitChar '.' a.PreRelease) (splitChar '.' b.PreRelease)
  · simp [h1, h2]
  · simp [h1, h2]
  · simpa [h1, h2] using
      recursivePreReleaseCompare_swap (splitChar '.' a.PreRelease) (splitChar '.' b.PreRelease)

/-- go-semver's pre-release comparison is reflexive. -/
theorem preReleaseCompare_self (a : SemVer) : preReleaseCompare a a = 0 := by
  unfold preReleaseCompare
  cases h : a.PreRelease.isEmpty <;> simp [h, recursivePreReleaseCompare_self]

/-- Swapping the arguments of go-semver's `Compare` negates the result
exactly. -/
theorem semverCompare_swap (a b : SemVer) : semverCompare b a = -semverCompare a b := by
  unfold semverCompare
  rw [semverTripleCmp_swap]
  by_cases h : semverTripleCmp a b = 0
  · simpa [h] using preReleaseCompare_swap a b
  · simp [h, neg_eq_zero]

/-- go-semver's `Compare` is reflexive. -/
theorem semverCompare_self (a : SemVer) : semverCompare a a = 0 := by
  unfold semverCompare
  simp [semverTripleCmp_self, preReleaseCompare_self]

/-- Swapping the arguments of `versionutil.Compare` negates the result
exactly. -/
theorem Compare_swap (a b : String) (strict : Bool) :
    Compare b a strict = -Compare a b strict := by
  unfold Compare
  cases h1 : newVersion a.data <;> cases h2 : newVersion b.data <;>
    simp only [h1, h2]
  · exact compareLoop_swap _ _
  · exact compareLoop_swap _ _
  · exact compareLoop_swap _ _
  · exact semverCompare_swap _ _

/-- `versionutil.Compare` is reflexive. -/
theorem Compare_self (a : String) (strict : Bool) : Compare a a strict = 0 := by
  unfold Compare
  cases h : newVersion a.data <;> simp only [h]
  · exact compareLoop_self _
  · exact semverCompare_self _

/-- C4: for all version strings and both values of the strict flag,
`sign(Compare(a,b,strict)) = -sign(Compare(b,a,strict))`, and
`Compare(a,a,strict) = 0` (in fact the stronger exact negation
`Compare(b,a,strict) = -Compare(a,b,strict)` holds, see `Compare_swap`). -/
theorem compare_antisymm_refl (a b : String) (strict : Bool) :
    Int.sign (Compare a b strict) = -Int.sign (Compare b a strict) ∧
    Compare a a strict = 0 := by
  refine ⟨?_, Compare_self a strict⟩
  rw [Compare_swap a b strict, Int.sign_neg, neg_neg]

/-! ## Document-name round trip (C5) -/

/-- `strings.Split` never returns an empty list. -/
theorem splitChar_ne_nil (c : Char) (xs : List Char) : splitChar c xs ≠ [] := by
  cases xs with
  | nil => simp [splitChar]
  | cons a as =>
    unfold splitChar
    cases h : splitChar c as with
    | nil => by_cases hc : a = c <;> simp [hc]
    | cons hd tl => by_cases hc : a = c <;> simp [hc]

/-- `strings.Split` on a string free of the separator returns the single
piece. -/
theorem splitChar_not_mem (c : Char) (xs : List Char) (h : c ∉ xs) :
    splitChar c xs = [xs] := by
  induction xs with
  | nil => rfl
  | cons a as ih =>
    have hac : a ≠ c := fun he => h (he ▸ List.mem_cons_self a as)
    have has : c ∉ as := fun hm => h (List.mem_cons_of_mem a hm)
    unfold splitChar
    rw [ih has]
    simp [hac]

/-- `strings.Split` at the first separator occurrence. -/
theorem splitChar_append (c : Char) (xs ys : List Char) (h : c ∉ xs) :
    splitChar c (xs ++ c :: ys) = xs :: splitChar c ys := by
  induction xs with
  | nil =>
    simp only [List.nil_append, splitChar]
    cases hsp : splitChar c ys with
    | nil => exact absurd hsp (splitChar_ne_nil c ys)
    | cons hd tl => simp
  | cons a as ih =>
    have hac : a ≠ c := fun he => h (he ▸ List.mem_cons_self a as)
    have has : c ∉ as := fun hm => h (List.mem_cons_of_mem a hm)
    simp only [List.cons_append, splitChar, List.append_eq]
    rw [ih has]
    simp [hac]

/-- `takeWhile` passes over a block that satisfies the predicate. -/
theorem takeWhile_append_all (p : Char → Bool) (xs ys : List Char)
    (h : ∀ a ∈ xs, p a = true) :
    (xs ++ ys).takeWhile p = xs ++ ys.takeWhile p := by
  induction xs with
  | nil => rfl
  | cons a as ih =>
    simp only [List.cons_append, List.takeWhile_cons, h a (List.mem_cons_self a as), if_true]
    rw [ih fun x hx => h x (List.mem_cons_of_mem a hx)]

/-- A list is a `revStartsWith`-suffix of anything it ends. -/
theorem revStartsWith_append (xs ys : List Char) : revStartsWith (xs ++ ys) xs = true := by
  induction xs with
  | nil => cases ys <;> rfl
  | cons a as ih => simp [revStartsWith, ih]

/-- `strings.TrimSuffix` removes a suffix that is really there. -/
theorem goTrimSuffix_append (xs ys : List Char) : goTrimSuffix (xs ++ ys) ys = xs := by
  unfold goTrimSuffix
  rw [if_pos]
  · rw [List.length_append, Nat.add_sub_cancel]
    exact List.take_left xs ys
  · rw [List.reverse_append]
    exact revStartsWith_append ys.reverse xs.reverse

/-- `filepath.Base` of `basename:version` input: with no `/` in the version,
the basename after the last `/` is kept together with the `:version`
suffix. -/
theorem filepathBase_append (n v : List Char) (hv : '/' ∉ v) :
    filepathBase (String.mk (n ++ ':' :: v)) =
      String.mk ((n.reverse.takeWhile fun c => c ≠ '/').reverse ++ ':' :: v) := by
  have hrev : (n ++ ':' :: v).reverse = v.reverse ++ ':' :: n.reverse := by
    simp
  have hdw : (n ++ ':' :: v).reverse.dropWhile (fun c => c = '/') = (n ++ ':' :: v).reverse := by
    rw [hrev]
    cases hvr : v.reverse with
    | nil => simp [List.dropWhile_cons]
    | cons hd tl =>
      have hmem : hd ∈ v := by
        have h1 : hd ∈ v.reverse := by
          rw [hvr]
          exact List.mem_cons_self hd tl
        simpa using h1
      have hne : hd ≠ '/' := fun he => hv (he ▸ hmem)
      simp [List.dropWhile_cons, hne]
  have htw : (n ++ ':' :: v).reverse.takeWhile (fun c => c ≠ '/') =
      v.reverse ++ ':' :: n.reverse.takeWhile (fun c => c ≠ '/') := by
    rw [hrev, takeWhile_append_all]
    · simp [List.takeWhile_cons]
    · intro a ha
      have hav : a ∈ v := by simpa using ha
      have hne : a ≠ '/' := fun he => hv (he ▸ hav)
      simp [hne]
  unfold filepathBase
  rw [if_neg (by simp)]
  dsimp only
  rw [hdw, List.reverse_reverse, htw]
  have hb : (v.reverse ++ ':' :: n.reverse.takeWhile (fun c => c ≠ '/')).reverse =
      (n.reverse.takeWhile fun c => c ≠ '/').reverse ++ ':' :: v := by
    simp
  rw [hb, if_neg (by simp)]

/-- C5 (amended): the round trip holds for every `name` free of `:` and
every `ver` free of `:` and `/` — `ParseDocumentNameAndVersion(name ++ ":"
++ ver) = (name, ver)` — and the empty input yields two empty strings; for
a `name` with an interior `:` (even without a trailing `:`) the split of
the basename takes its second `:`-field as the version, so the round trip
fails. -/
theorem parse_name_version_roundtrip (name ver : String)
    (hn : ':' ∉ name.data) (hv1 : ':' ∉ ver.data) (hv2 : '/' ∉ ver.data) :
    ParseDocumentNameAndVersion (name ++ ":" ++ ver) = (name, ver) ∧
    ParseDocumentNameAndVersion "" = ("", "") := by
  refine ⟨?_, rfl⟩
  have hdata : (name ++ ":" ++ ver).data = name.data ++ ':' :: ver.data := by
    rw [String.data_append, String.data_append]
    simp
  have hstr : name ++ ":" ++ ver = String.mk (name.data ++ ':' :: ver.data) :=
    congrArg String.mk hdata
  have hbn : ':' ∉ (name.data.reverse.takeWhile fun c => c ≠ '/').reverse := by
    intro hmem
    have h1 : ':' ∈ name.data.reverse.takeWhile (fun c => c ≠ '/') := by simpa using hmem
    have h2 : ':' ∈ name.data.reverse := (List.takeWhile_sublist _).subset h1
    exact hn (by simpa using h2)
  rw [hstr]
  unfold ParseDocumentNameAndVersion
  rw [if_neg (by simp)]
  dsimp only
  rw [filepathBase_append name.data ver.data hv2]
  rw [show (String.mk ((name.data.reverse.takeWhile fun c => c ≠ '/').reverse ++
      ':' :: ver.data)).data =
      (name.data.reverse.takeWhile fun c => c ≠ '/').reverse ++ ':' :: ver.data from rfl]
  rw [splitChar_append ':' _ ver.data hbn, splitChar_not_mem ':' ver.data hv1]
  dsimp only
  rw [goTrimSuffix_append name.data (':' :: ver.data)]

/-- C5, counterexample to the claim as stated: `name = "a:b"` has no
trailing `:`, yet the round trip with `ver = "c"` returns
`("a:b:c", "b")`, not `("a:b", "c")`. -/
theorem parse_name_version_colon_counterexample :
    ParseDocumentNameAndVersion ("a:b" ++ ":" ++ "c") = ("a:b:c", "b") ∧
    ParseDocumentNameAndVersion ("a:b" ++ ":" ++ "c") ≠ ("a:b", "c") := by
  constructor
  · decide
  · decide

/-- C5, witness: the amended round trip on a concrete slash-containing
name. -/
theorem parse_name_version_roundtrip_witness :
    (':' ∉ "my/Doc".data) ∧ (':' ∉ "12".data) ∧ ('/' ∉ "12".data) ∧
    (ParseDocumentNameAndVersion ("my/Doc" ++ ":" ++ "12") = ("my/Doc", "12") ∧
     ParseDocumentNameAndVersion "" = ("", "")) :=
  ⟨by decide, by decide, by decide,
    parse_name_version_roundtrip "my/Doc" "12" (by decide) (by decide) (by decide)⟩

end SsmAgent
